import Mathlib

/-!
Verification of `wallabag_tiny_cli.py` (a minimal wallabag command-line
client).  The Python source is shallowly embedded below: pure helpers become
Lean functions, the effectful parts (environment reads, the token-cache file,
HTTP POSTs, `sys.exit`, uncaught exceptions) are modelled by explicit state
passing and an effect trace.  Python integers are `Int`/`Nat`; strings are
Lean `String` (Unicode scalar values; Python's tolerance for lone surrogates
in `str` is outside this embedding's domain).
-/

set_option maxRecDepth 4096

namespace WallabagTinyCli

/-- The token cache record: the dict
`\x7b"token": <string>, "expiration": <int>\x7d` that `get_oauth_token`
persists to `/tmp/wallabag_token.json` (src lines 104-116). -/
structure TokenRecord where
  token : String
  expiration : Int
  deriving DecidableEq, Repr

/-! ## JSON text layer

Models the parts of Python's `json` module that the script exercises when it
serializes the token dict (`json.dump`) and reads it back (`json.load`):
string escaping with `ensure_ascii=True` (the default), integer literals, and
the object syntax json.dump emits (separators `", "` and `": "`, insertion
order of the keys).
-/

/-- Lower-case hex digit, as produced by Python's `'\u%04x'` escape format. -/
def hexDigit (n : Nat) : Char :=
  if n < 10 then Char.ofNat (48 + n) else Char.ofNat (87 + n)

/-- Numeric value of a hex digit character (json accepts both cases). -/
def hexVal (c : Char) : Option Nat :=
  if 48 ≤ c.toNat ∧ c.toNat ≤ 57 then some (c.toNat - 48)
  else if 97 ≤ c.toNat ∧ c.toNat ≤ 102 then some (c.toNat - 87)
  else if 65 ≤ c.toNat ∧ c.toNat ≤ 70 then some (c.toNat - 55)
  else none

/-- Four-digit lower-case hex rendering of `n < 0x10000`. -/
def hex4 (n : Nat) : List Char :=
  [hexDigit (n / 4096 % 16), hexDigit (n / 256 % 16), hexDigit (n / 16 % 16), hexDigit (n % 16)]

/-- Read four hex digits. -/
def parse4hex : List Char → Option (Nat × List Char)
  | a :: b :: c :: d :: rest =>
    match hexVal a, hexVal b, hexVal c, hexVal d with
    | some va, some vb, some vc, some vd => some (va * 4096 + vb * 256 + vc * 16 + vd, rest)
    | _, _, _, _ => none
  | _ => none

/-- Escape one character the way `json.dumps` does with `ensure_ascii=True`:
shortcut escapes from ESCAPE_DCT, printable ASCII verbatim, `\uXXXX` for the
rest, surrogate pairs above the BMP. -/
def escapeChar (c : Char) : List Char :=
  if c = '\\' then ['\\', '\\']
  else if c = '"' then ['\\', '"']
  else if c = Char.ofNat 8 then ['\\', 'b']
  else if c = Char.ofNat 12 then ['\\', 'f']
  else if c = '\n' then ['\\', 'n']
  else if c = '\r' then ['\\', 'r']
  else if c = '\t' then ['\\', 't']
  else if 32 ≤ c.toNat ∧ c.toNat ≤ 126 then [c]
  else if c.toNat < 65536 then '\\' :: 'u' :: hex4 c.toNat
  else
    '\\' :: 'u' :: hex4 (55296 + (c.toNat - 65536) / 1024)
      ++ '\\' :: 'u' :: hex4 (56320 + (c.toNat - 65536) % 1024)

/-- Escape a whole character list. -/
def escapeList : List Char → List Char
  | [] => []
  | c :: cs => escapeChar c ++ escapeList cs

/-- After a high surrogate `\uXXXX`, decode the mandatory low-surrogate
escape and recombine the pair into one scalar value. -/
def parseLowSurrogate (hi : Nat) : List Char → Option (Char × List Char)
  | '\\' :: 'u' :: rest3 =>
    match parse4hex rest3 with
    | none => none
    | some (m, rest4) =>
      if 56320 ≤ m ∧ m ≤ 57343 then
        some (Char.ofNat (65536 + (hi - 55296) * 1024 + (m - 56320)), rest4)
      else none
  | _ => none

/-- Decode a `\uXXXX` escape (the four hex digits onward), recombining
surrogate pairs. -/
def parseU (rest : List Char) : Option (Char × List Char) :=
  match parse4hex rest with
  | none => none
  | some (n, rest2) =>
    if 55296 ≤ n ∧ n ≤ 56319 then parseLowSurrogate n rest2
    else if 56320 ≤ n ∧ n ≤ 57343 then none
    else some (Char.ofNat n, rest2)

/-- Decode one escape sequence (the character after a backslash onward). -/
def parseEscape : List Char → Option (Char × List Char)
  | [] => none
  | e :: rest =>
    if e = '"' then some ('"', rest)
    else if e = '\\' then some ('\\', rest)
    else if e = '/' then some ('/', rest)
    else if e = 'b' then some (Char.ofNat 8, rest)
    else if e = 'f' then some (Char.ofNat 12, rest)
    else if e = 'n' then some ('\n', rest)
    else if e = 'r' then some ('\r', rest)
    else if e = 't' then some ('\t', rest)
    else if e = 'u' then parseU rest
    else none

/-- Fuelled scan of a JSON string body: consumes characters (decoding
escapes) up to and including the closing quote, returning the decoded
content and the remaining input.  One unit of fuel is spent per decoded
character, so fuel equal to the input length always suffices. -/
def parseCharsF : Nat → List Char → Option (List Char × List Char)
  | 0, _ => none
  | _ + 1, [] => none
  | fuel + 1, c :: rest =>
    if c = '"' then some ([], rest)
    else if c = '\\' then
      match parseEscape rest with
      | none => none
      | some (d, rest2) => (parseCharsF fuel rest2).map (fun p => (d :: p.1, p.2))
    else (parseCharsF fuel rest).map (fun p => (c :: p.1, p.2))

/-- Scan a JSON string body (everything after the opening quote). -/
def parseChars (l : List Char) : Option (List Char × List Char) :=
  parseCharsF l.length l

/-- Strip an expected literal prefix. -/
def stripL : List Char → List Char → Option (List Char)
  | [], l => some l
  | _ :: _, [] => none
  | p :: ps, c :: cs => if c = p then stripL ps cs else none

/-- Decimal digit character. -/
def decDigit (n : Nat) : Char := Char.ofNat (48 + n)

/-- Decimal rendering of a natural number, as Python's `repr`/`json.dump`
prints a non-negative int. -/
def natToDigits (n : Nat) : List Char :=
  if _h : n < 10 then [decDigit n]
  else natToDigits (n / 10) ++ [decDigit (n % 10)]
termination_by n
decreasing_by omega

/-- Decimal rendering of a Python int (optional leading minus sign). -/
def intToDigits (i : Int) : List Char :=
  if i < 0 then '-' :: natToDigits i.natAbs else natToDigits i.toNat

/-- Greedily take leading decimal digits. -/
def takeDigits : List Char → List Char × List Char
  | [] => ([], [])
  | c :: rest =>
    if 48 ≤ c.toNat ∧ c.toNat ≤ 57 then
      let p := takeDigits rest
      (c :: p.1, p.2)
    else ([], c :: rest)

/-- Accumulating decimal value of a digit list. -/
def digitsToNatAux (acc : Nat) : List Char → Nat
  | [] => acc
  | c :: cs => digitsToNatAux (acc * 10 + (c.toNat - 48)) cs

/-- Decimal value of a digit list. -/
def digitsToNat (l : List Char) : Nat := digitsToNatAux 0 l

/-- Parse a JSON integer literal (optional minus sign, one or more digits). -/
def parseIntChars (l : List Char) : Option (Int × List Char) :=
  if l.head? = some '-' then
    match takeDigits l.tail with
    | ([], _) => none
    | (d :: ds, r) => some (-(digitsToNat (d :: ds) : Int), r)
  else
    match takeDigits l with
    | ([], _) => none
    | (d :: ds, r) => some ((digitsToNat (d :: ds) : Int), r)

/-- Serialized form of a JSON string value: quote, escaped body, quote. -/
def jsonString (s : String) : String :=
  String.mk ('"' :: escapeList s.data ++ ['"'])

/-- The exact bytes `json.dump(\x7b"token": t, "expiration": e\x7d, f)`
writes to the cache file (src line 115): insertion-ordered keys, `", "` item
separator, `": "` key separator, `ensure_ascii` escaping. -/
def dumpTokenRecord (r : TokenRecord) : String :=
  String.mk ("\x7b\"token\": \"".data ++ escapeList r.token.data
    ++ '"' :: (", \"expiration\": ".data ++ (intToDigits r.expiration ++ ['\x7d'])))

/-- Read a serialized token record back, as `json.load` (src line 110)
followed by the two key accesses does.  The grammar accepted is the exact
shape `json.dump` emits for this two-field dict; `none` models a
`json.JSONDecodeError`/`KeyError` on anything else. -/
def loadTokenRecord (s : String) : Option TokenRecord :=
  (stripL "\x7b\"token\": \"".data s.data).bind (fun l1 =>
    (parseChars l1).bind (fun p =>
      (stripL ", \"expiration\": ".data p.2).bind (fun l3 =>
        (parseIntChars l3).bind (fun q =>
          if q.2 = ['\x7d'] then some ⟨String.mk p.1, q.1⟩ else none))))

/-! ## Effect model of the script

The script's effects are: environment-variable reads, the token-cache file,
HTTP POSTs, `sys.exit`, and uncaught exceptions.  A run is modelled as a
pure function of
- the environment (`String → Option String`),
- the cache-file state before the run (`CacheContent`),
- the two samples of `int(round(time.time()))` the script can take
  (`now1` at src line 112, `now2` at src line 65, with `now1 ≤ now2` for a
  real clock), and
- the OAuth endpoint's (successful, well-formed) response.

It returns the outcome together with a `Trace` of the effects and the
cache-file state after the run.  A failed network call raises in Python and
is not modelled; every claim below is about runs where any network call
that happens succeeds.
-/

/-- The parsed contents of the cache file as far as the script inspects
them: a JSON object whose `"token"` and `"expiration"` members may each be
present or absent.  (Other member types make the script fail in ways the
claims do not exercise and are not modelled.) -/
structure TokenDict where
  token : Option String
  expiration : Option Int
  deriving DecidableEq, Repr

/-- State of the token cache file `/tmp/wallabag_token.json`. -/
inductive CacheContent where
  /-- `os.path.exists` is false -/
  | absent
  /-- the file exists but `json.load` raises `json.JSONDecodeError` -/
  | malformed
  /-- the file exists and parses to a JSON object -/
  | dict (d : TokenDict)
  deriving DecidableEq, Repr

/-- Python exceptions the script can raise (none are caught anywhere). -/
inductive PyError where
  | jsonDecodeError
  | keyError (key : String)
  /-- `args[1]` with fewer than two argv entries -/
  | indexError
  /-- `getattr` on a name that is not an attribute of the object -/
  | attributeError
  /-- calling the bound `add` method with an argument count other than its
  parameter count -/
  | typeError
  deriving DecidableEq, Repr

/-- Outcome of running a piece of the script. -/
inductive Result (α : Type) where
  /-- normal completion -/
  | ok (a : α)
  /-- `sys.exit(code)` after printing `msg` -/
  | exit (code : Nat) (msg : String)
  /-- an uncaught exception propagates -/
  | exc (e : PyError)
  /-- the run reflectively dispatches to an attribute other than `add`
  (`_post`, the classmethod, a string field, a dunder); those runs are
  outside this embedding and no claim is about them -/
  | unmodelled
  deriving DecidableEq, Repr

/-- Propagate exit/exception, map the normal value. -/
def Result.mapOk {α β : Type} (f : α → β) : Result α → Result β
  | .ok a => .ok (f a)
  | .exit c m => .exit c m
  | .exc e => .exc e
  | .unmodelled => .unmodelled

/-- An HTTP POST as built by `Wallabag._post` (src lines 77-90): target url,
header list, and the `json.dumps(data)` body. -/
structure HttpRequest where
  url : String
  headers : List (String × String)
  body : String
  deriving DecidableEq, Repr

/-- Trace of the externally visible effects of a run. -/
structure Trace where
  /-- names of the environment variables read, in order -/
  envReads : List String
  /-- POSTs to the OAuth token endpoint -/
  oauthPosts : List HttpRequest
  /-- POSTs to the entries endpoint -/
  entriesPosts : List HttpRequest
  deriving DecidableEq, Repr

/-- The empty trace. -/
def Trace.none : Trace := ⟨[], [], []⟩

/-- Prefix the trace with the `WALLABAG_URL` read done by `get_wallabag`. -/
def Trace.withUrlRead (tr : Trace) : Trace :=
  ⟨"WALLABAG_URL" :: tr.envReads, tr.oauthPosts, tr.entriesPosts⟩

/-- Embeds `get_env_var` (src lines 12-23).  `os.environ.get` falls back to
`default` when the variable is absent; a value that is `None` or the empty
string is falsy, so the script prints the message and calls `sys.exit(1)`,
modelled as `.error (1, msg)`. -/
def get_env_var (env : String → Option String) (var : String) (default : Option String) :
    Except (Nat × String) String :=
  let value : Option String :=
    match env ("WALLABAG_" ++ var) with
    | some v => some v
    | none => default
  match value with
  | none => .error (1, "Missing required environment variable: " ++ ("WALLABAG_" ++ var))
  | some v =>
    if v = "" then .error (1, "Missing required environment variable: " ++ ("WALLABAG_" ++ var))
    else .ok v

/-- Serialization of a JSON object all of whose values are strings, as
`json.dumps` renders the request dicts (insertion order, `", "` and `": "`
separators). -/
def json_dumps_obj (fields : List (String × String)) : String :=
  "\x7b" ++ String.intercalate ", " (fields.map (fun kv => jsonString kv.1 ++ ": " ++ jsonString kv.2)) ++ "\x7d"

/-- Embeds `Wallabag._post` (src lines 77-90): the request it sends.
`Content-Type` is always set; `Authorization` only when `token` is truthy
(not `None` and not the empty string). -/
def post_request (url : String) (data : List (String × String)) (token : Option String) :
    HttpRequest :=
  let headers := [("Content-Type", "application/json")]
  let headers :=
    match token with
    | some t => if t = "" then headers else headers ++ [("Authorization", "Bearer " ++ t)]
    | none => headers
  ⟨url, headers, json_dumps_obj data⟩

/-- Embeds the `Wallabag` object (src lines 38-45). -/
structure Wallabag where
  wallabag_url : String
  token : String
  deriving DecidableEq, Repr

/-- Embeds `Wallabag.add` (src lines 72-75): the single POST it issues via
`_post` to `\x7bself.wallabag_url\x7d/api/entries` with body
`\x7b'url': url\x7d` and the bearer token. -/
def Wallabag.add (w : Wallabag) (url : String) : HttpRequest :=
  post_request (w.wallabag_url ++ "/api/entries") [("url", url)] (some w.token)

/-- Embeds `Wallabag.get_oauth_token_and_expiration_from_api`
(src lines 47-70).  Reads the four credential variables in the dict's
evaluation order (each read can exit the process), POSTs the password grant
to `\x7bwallabag_url\x7d/oauth/v2/token`, then builds the token dict from
the response: `expiration = now2 + expires_in` where `now2` is
`int(round(time.time()))` taken after the response arrives. -/
def get_oauth_token_and_expiration_from_api (env : String → Option String)
    (wallabag_url : String) (now2 : Int) (resp_access_token : String) (resp_expires_in : Int) :
    Result TokenDict × Trace :=
  match get_env_var env "CLIENT_ID" none with
  | .error (c, m) => (.exit c m, ⟨["WALLABAG_CLIENT_ID"], [], []⟩)
  | .ok client_id =>
  match get_env_var env "CLIENT_SECRET" none with
  | .error (c, m) => (.exit c m, ⟨["WALLABAG_CLIENT_ID", "WALLABAG_CLIENT_SECRET"], [], []⟩)
  | .ok client_secret =>
  match get_env_var env "USERNAME" none with
  | .error (c, m) =>
    (.exit c m, ⟨["WALLABAG_CLIENT_ID", "WALLABAG_CLIENT_SECRET", "WALLABAG_USERNAME"], [], []⟩)
  | .ok username =>
  match get_env_var env "PASSWORD" none with
  | .error (c, m) =>
    (.exit c m,
     ⟨["WALLABAG_CLIENT_ID", "WALLABAG_CLIENT_SECRET", "WALLABAG_USERNAME", "WALLABAG_PASSWORD"],
      [], []⟩)
  | .ok password =>
    let req := post_request (wallabag_url ++ "/oauth/v2/token")
      [("grant_type", "password"), ("client_id", client_id), ("client_secret", client_secret),
       ("username", username), ("password", password)] none
    (.ok ⟨some resp_access_token, some (now2 + resp_expires_in)⟩,
     ⟨["WALLABAG_CLIENT_ID", "WALLABAG_CLIENT_SECRET", "WALLABAG_USERNAME", "WALLABAG_PASSWORD"],
      [req], []⟩)

/-- Embeds src lines 104-110: `token_data = \x7b"expiration": 0\x7d`, then
`json.load` of the cache file when it exists (whose failure raises). -/
def loadCache : CacheContent → Except PyError TokenDict
  | .absent => .ok ⟨none, some 0⟩
  | .malformed => .error .jsonDecodeError
  | .dict d => .ok d

/-- Embeds src line 116, `return str(token_data["token"])`: the subscript
raises `KeyError` when the key is absent; `str` of a string is itself. -/
def finalToken (d : TokenDict) : Result String :=
  match d.token with
  | some t => .ok t
  | none => .exc (.keyError "token")

/-- Embeds `get_oauth_token` (src lines 93-116): load the cache, refresh via
the API when `token_data["expiration"] < int(round(time.time()))` (raising
`KeyError` when the loaded object has no `"expiration"`), persist the fresh
dict with `json.dump`, and return `str(token_data["token"])`. -/
def get_oauth_token (env : String → Option String) (wallabag_url : String)
    (cache : CacheContent) (now1 now2 : Int)
    (resp_access_token : String) (resp_expires_in : Int) :
    Result String × Trace × CacheContent :=
  match loadCache cache with
  | .error e => (.exc e, Trace.none, cache)
  | .ok token_data =>
    match token_data.expiration with
    | none => (.exc (.keyError "expiration"), Trace.none, cache)
    | some expiration =>
      if expiration < now1 then
        match get_oauth_token_and_expiration_from_api env wallabag_url now2
            resp_access_token resp_expires_in with
        | (.ok td, tr) => (finalToken td, tr, .dict td)
        | (.exit c m, tr) => (.exit c m, tr, cache)
        | (.exc e, tr) => (.exc e, tr, cache)
        | (.unmodelled, tr) => (.unmodelled, tr, cache)
      else (finalToken token_data, Trace.none, cache)

/-- Embeds `get_wallabag` (src lines 119-123): read `WALLABAG_URL` with its
default, obtain the token, build the client object. -/
def get_wallabag (env : String → Option String) (cache : CacheContent) (now1 now2 : Int)
    (resp_access_token : String) (resp_expires_in : Int) :
    Result Wallabag × Trace × CacheContent :=
  match get_env_var env "URL" (some "https://app.wallabag.it") with
  | .error (c, m) => (.exit c m, ⟨["WALLABAG_URL"], [], []⟩, cache)
  | .ok wallabag_url =>
    match get_oauth_token env wallabag_url cache now1 now2 resp_access_token resp_expires_in with
    | (r, tr, cache2) =>
      (r.mapOk (fun token => ⟨wallabag_url, token⟩), tr.withUrlRead, cache2)

/-- The usage text the body of `print_usage_and_exit_unless` would print
(src lines 26-35).  That body is dead code at every call site — see
`print_usage_and_exit_unless` below. -/
def usage_text : String :=
  "\n        Usage:\n            wallabag_tiny_cli.py add <url>\n        "

/-- Embeds `print_usage_and_exit_unless` (src lines 26-35).  The parameter
is declared `*condition: bool`, so a call with arguments packs them into a
tuple — modelled as the list of the arguments.  `if not condition:` tests
the truthiness of that tuple: it fires only when the tuple is empty.  Every
call site in the script passes exactly one boolean, so at every call site
the function is a no-op, whatever the boolean's value. -/
def print_usage_and_exit_unless (condition : List Bool) : Result Unit :=
  if condition = [] then .exit 1 usage_text else .ok ()

/-- Models `len(signature(command_method).parameters)` for the bound method
`Wallabag.add` (src line 135): `add(self, url)` bound to an instance has one
parameter. -/
def add_needed_parameter_count : Nat := 1

/-- Embeds the `__main__` block (src lines 126-137).  Both
`print_usage_and_exit_unless` calls are no-ops (their boolean is packed
into a non-empty, hence truthy, tuple), so:
- with fewer than two argv entries, `args[1]` raises `IndexError` before
  any effect;
- otherwise `get_wallabag()` runs unconditionally (environment read, token
  load and possible OAuth refresh with a cache write), and only then
  `getattr(wallabag, command)` resolves the command: `add` dispatches to
  the add method, whose reflective call `command_method(*command_args)`
  raises `TypeError` unless exactly `add_needed_parameter_count = 1`
  argument was given (the arity guard at src line 136 is also a no-op);
  `wallabag_url` and `token` resolve to string fields, on which
  `inspect.signature` raises `TypeError`; the classmethod name and names
  beginning with an underscore reach other callables or the dunder
  machinery and are not modelled; every other name raises
  `AttributeError`. -/
def main_run (env : String → Option String) (cache : CacheContent) (now1 now2 : Int)
    (resp_access_token : String) (resp_expires_in : Int) (argv : List String) :
    Result Unit × Trace × CacheContent :=
  match argv with
  | [] => (.exc .indexError, Trace.none, cache)
  | [_] => (.exc .indexError, Trace.none, cache)
  | _ :: command :: command_args =>
    match get_wallabag env cache now1 now2 resp_access_token resp_expires_in with
    | (.ok w, tr, cache2) =>
      if command = "add" then
        match command_args with
        | [url] =>
          (.ok (), ⟨tr.envReads, tr.oauthPosts, tr.entriesPosts ++ [w.add url]⟩, cache2)
        | _ => (.exc .typeError, tr, cache2)
      else if command = "wallabag_url" ∨ command = "token" then
        (.exc .typeError, tr, cache2)
      else if command = "get_oauth_token_and_expiration_from_api"
          ∨ command.data.head? = some '_' then
        (.unmodelled, tr, cache2)
      else (.exc .attributeError, tr, cache2)
    | (.exit c m, tr, cache2) => (.exit c m, tr, cache2)
    | (.exc e, tr, cache2) => (.exc e, tr, cache2)
    | (.unmodelled, tr, cache2) => (.unmodelled, tr, cache2)

/-- All four credential variables are present and non-empty in the
environment. -/
def credsPresent (env : String → Option String) : Prop :=
  (∃ s, env "WALLABAG_CLIENT_ID" = some s ∧ s ≠ "")
  ∧ (∃ s, env "WALLABAG_CLIENT_SECRET" = some s ∧ s ≠ "")
  ∧ (∃ s, env "WALLABAG_USERNAME" = some s ∧ s ≠ "")
  ∧ (∃ s, env "WALLABAG_PASSWORD" = some s ∧ s ≠ "")

/-- A fully populated test environment, for concrete witnesses. -/
def envTest : String → Option String := fun name =>
  if name = "WALLABAG_URL" then some "https://w.example"
  else if name = "WALLABAG_CLIENT_ID" then some "cid"
  else if name = "WALLABAG_CLIENT_SECRET" then some "sec"
  else if name = "WALLABAG_USERNAME" then some "user"
  else if name = "WALLABAG_PASSWORD" then some "pw"
  else none

/-- An environment with only the server URL set and no credentials. -/
def envOnlyUrl : String → Option String := fun name =>
  if name = "WALLABAG_URL" then some "https://w.example" else none

/-- An environment where the server URL is set to the empty string. -/
def envUrlEmpty : String → Option String := fun name =>
  if name = "WALLABAG_URL" then some "" else none

/-- The four credential variables, in the order the script reads them. -/
def credential_reads : List String :=
  ["WALLABAG_CLIENT_ID", "WALLABAG_CLIENT_SECRET", "WALLABAG_USERNAME", "WALLABAG_PASSWORD"]

/-! ## Serialization lemmas

The chain of inversion lemmas showing the reader decodes exactly what
`json.dump` wrote, character by character. -/

theorem hexVal_hexDigit : ∀ d, d < 16 → hexVal (hexDigit d) = some d := by decide

theorem parse4hex_hex4 (n : Nat) (rest : List Char) (h : n < 65536) :
    parse4hex (hex4 n ++ rest) = some (n, rest) := by
  have h1 : n / 4096 % 16 < 16 := Nat.mod_lt _ (by omega)
  have h2 : n / 256 % 16 < 16 := Nat.mod_lt _ (by omega)
  have h3 : n / 16 % 16 < 16 := Nat.mod_lt _ (by omega)
  have h4 : n % 16 < 16 := Nat.mod_lt _ (by omega)
  simp only [hex4, List.cons_append, List.nil_append, parse4hex,
    hexVal_hexDigit _ h1, hexVal_hexDigit _ h2, hexVal_hexDigit _ h3, hexVal_hexDigit _ h4]
  have : n / 4096 % 16 * 4096 + n / 256 % 16 * 256 + n / 16 % 16 * 16 + n % 16 = n := by
    omega
  rw [this]

theorem char_toNat_valid (c : Char) :
    c.toNat < 1114112 ∧ ¬(55296 ≤ c.toNat ∧ c.toNat < 57344) := by
  have h : c.val.toNat < 55296 ∨ (57343 < c.val.toNat ∧ c.val.toNat < 1114112) := c.valid
  have he : c.toNat = c.val.toNat := rfl
  omega

theorem parseCharsF_other (fuel : Nat) (c : Char) (rest : List Char)
    (h1 : c ≠ '"') (h2 : c ≠ '\\') :
    parseCharsF (fuel + 1) (c :: rest)
      = (parseCharsF fuel rest).map (fun p => (c :: p.1, p.2)) := by
  simp only [parseCharsF]
  rw [if_neg h1, if_neg h2]

theorem parseCharsF_backslash_some (fuel : Nat) (rest rest2 : List Char) (d : Char)
    (hp : parseEscape rest = some (d, rest2)) :
    parseCharsF (fuel + 1) ('\\' :: rest)
      = (parseCharsF fuel rest2).map (fun p => (d :: p.1, p.2)) := by
  show (match parseEscape rest with
        | none => none
        | some (d, rest2) =>
          (parseCharsF fuel rest2).map (fun p : List Char × List Char => (d :: p.1, p.2))) = _
  rw [hp]

theorem parseEscape_u (rest : List Char) : parseEscape ('u' :: rest) = parseU rest := rfl

theorem parseU_single (n : Nat) (rest2 rest : List Char)
    (hp : parse4hex rest = some (n, rest2))
    (h1 : ¬(55296 ≤ n ∧ n ≤ 56319)) (h2 : ¬(56320 ≤ n ∧ n ≤ 57343)) :
    parseU rest = some (Char.ofNat n, rest2) := by
  unfold parseU
  rw [hp]
  show (if 55296 ≤ n ∧ n ≤ 56319 then parseLowSurrogate n rest2
    else if 56320 ≤ n ∧ n ≤ 57343 then none else some (Char.ofNat n, rest2)) = _
  rw [if_neg h1, if_neg h2]

theorem parseU_pair (n : Nat) (rest2 rest : List Char)
    (hp : parse4hex rest = some (n, rest2)) (h1 : 55296 ≤ n ∧ n ≤ 56319) :
    parseU rest = parseLowSurrogate n rest2 := by
  unfold parseU
  rw [hp]
  show (if 55296 ≤ n ∧ n ≤ 56319 then parseLowSurrogate n rest2
    else if 56320 ≤ n ∧ n ≤ 57343 then none else some (Char.ofNat n, rest2)) = _
  rw [if_pos h1]

theorem parseLowSurrogate_some (hi m : Nat) (rest3 rest4 : List Char)
    (hp : parse4hex rest3 = some (m, rest4)) (hm : 56320 ≤ m ∧ m ≤ 57343) :
    parseLowSurrogate hi ('\\' :: 'u' :: rest3)
      = some (Char.ofNat (65536 + (hi - 55296) * 1024 + (m - 56320)), rest4) := by
  show (match parse4hex rest3 with
        | none => none
        | some (m, rest4) =>
          if 56320 ≤ m ∧ m ≤ 57343 then
            some (Char.ofNat (65536 + (hi - 55296) * 1024 + (m - 56320)), rest4)
          else none) = _
  rw [hp]
  show (if 56320 ≤ m ∧ m ≤ 57343 then
      some (Char.ofNat (65536 + (hi - 55296) * 1024 + (m - 56320)), rest4)
    else none) = _
  rw [if_pos hm]

theorem parseCharsF_escape (c : Char) (fuel : Nat) (l : List Char) :
    parseCharsF (fuel + 1) (escapeChar c ++ l)
      = (parseCharsF fuel l).map (fun p => (c :: p.1, p.2)) := by
  obtain ⟨hlt, hsur⟩ := char_toNat_valid c
  by_cases h1 : c = '\\'
  · subst h1; rfl
  by_cases h2 : c = '"'
  · subst h2; rfl
  by_cases h3 : c = Char.ofNat 8
  · subst h3; rfl
  by_cases h4 : c = Char.ofNat 12
  · subst h4; rfl
  by_cases h5 : c = '\n'
  · subst h5; rfl
  by_cases h6 : c = '\r'
  · subst h6; rfl
  by_cases h7 : c = '\t'
  · subst h7; rfl
  by_cases h8 : 32 ≤ c.toNat ∧ c.toNat ≤ 126
  · -- printable ASCII, emitted verbatim
    rw [escapeChar, if_neg h1, if_neg h2, if_neg h3, if_neg h4, if_neg h5, if_neg h6,
      if_neg h7, if_pos h8]
    show parseCharsF (fuel + 1) (c :: l) = _
    exact parseCharsF_other fuel c l h2 h1
  by_cases h9 : c.toNat < 65536
  · -- single \uXXXX escape
    have hesc : parseEscape ('u' :: (hex4 c.toNat ++ l)) = some (c, l) := by
      rw [parseEscape_u,
        parseU_single c.toNat l _ (parse4hex_hex4 _ _ h9) (by omega) (by omega),
        Char.ofNat_toNat]
    rw [escapeChar, if_neg h1, if_neg h2, if_neg h3, if_neg h4, if_neg h5, if_neg h6,
      if_neg h7, if_neg h8, if_pos h9]
    show parseCharsF (fuel + 1) ('\\' :: ('u' :: (hex4 c.toNat ++ l))) = _
    rw [parseCharsF_backslash_some fuel _ l c hesc]
  · -- astral plane: surrogate pair
    have hlow : parseLowSurrogate (55296 + (c.toNat - 65536) / 1024)
        ('\\' :: 'u' :: (hex4 (56320 + (c.toNat - 65536) % 1024) ++ l)) = some (c, l) := by
      rw [parseLowSurrogate_some _ (56320 + (c.toNat - 65536) % 1024) _ l
        (parse4hex_hex4 _ _ (by omega)) (by constructor <;> omega)]
      have harg : 65536 + (55296 + (c.toNat - 65536) / 1024 - 55296) * 1024
          + (56320 + (c.toNat - 65536) % 1024 - 56320) = c.toNat := by omega
      rw [harg, Char.ofNat_toNat]
    have hesc : parseEscape ('u' :: (hex4 (55296 + (c.toNat - 65536) / 1024)
        ++ ('\\' :: ('u' :: (hex4 (56320 + (c.toNat - 65536) % 1024) ++ l))))) = some (c, l) := by
      rw [parseEscape_u,
        parseU_pair _ _ _ (parse4hex_hex4 _ _ (by omega)) (by constructor <;> omega), hlow]
    rw [escapeChar, if_neg h1, if_neg h2, if_neg h3, if_neg h4, if_neg h5, if_neg h6,
      if_neg h7, if_neg h8, if_neg h9]
    show parseCharsF (fuel + 1)
        ('\\' :: ('u' :: (hex4 (55296 + (c.toNat - 65536) / 1024)
          ++ ('\\' :: ('u' :: (hex4 (56320 + (c.toNat - 65536) % 1024) ++ l)))))) = _
    rw [parseCharsF_backslash_some fuel _ l c hesc]

theorem escapeChar_length_pos (c : Char) : 0 < (escapeChar c).length := by
  rw [escapeChar]
  repeat' split
  all_goals simp only [hex4, List.length_cons, List.length_append, List.length_nil,
    List.length_singleton]
  all_goals omega

theorem escapeList_length_ge (cs : List Char) : cs.length ≤ (escapeList cs).length := by
  induction cs with
  | nil => simp [escapeList]
  | cons c cs ih =>
    have := escapeChar_length_pos c
    simp only [escapeList, List.length_append, List.length_cons]
    omega

theorem parseCharsF_escapeList (cs : List Char) :
    ∀ (fuel : Nat) (rest : List Char), cs.length < fuel →
      parseCharsF fuel (escapeList cs ++ '"' :: rest) = some (cs, rest) := by
  induction cs with
  | nil =>
    intro fuel rest h
    obtain ⟨f, rfl⟩ : ∃ f, fuel = f + 1 := ⟨fuel - 1, by omega⟩
    rfl
  | cons c cs ih =>
    intro fuel rest h
    obtain ⟨f, rfl⟩ : ∃ f, fuel = f + 1 := ⟨fuel - 1, by omega⟩
    show parseCharsF (f + 1) ((escapeChar c ++ escapeList cs) ++ '"' :: rest) = _
    rw [List.append_assoc, parseCharsF_escape,
      ih f rest (by simp only [List.length_cons] at h; omega)]
    rfl

theorem parseChars_escapeList (cs rest : List Char) :
    parseChars (escapeList cs ++ '"' :: rest) = some (cs, rest) := by
  apply parseCharsF_escapeList
  have := escapeList_length_ge cs
  simp only [List.length_append, List.length_cons]
  omega

theorem stripL_append (p l : List Char) : stripL p (p ++ l) = some l := by
  induction p with
  | nil => rfl
  | cons c cs ih => simp [stripL, ih]

theorem decDigit_bounds (n : Nat) (h : n < 10) :
    48 ≤ (decDigit n).toNat ∧ (decDigit n).toNat ≤ 57 := by
  interval_cases n <;> decide

theorem decDigit_toNat (n : Nat) (h : n < 10) : (decDigit n).toNat = 48 + n := by
  interval_cases n <;> decide

theorem natToDigits_all_digits (n : Nat) :
    ∀ c ∈ natToDigits n, 48 ≤ c.toNat ∧ c.toNat ≤ 57 := by
  induction n using Nat.strong_induction_on with
  | _ n ih =>
    rw [natToDigits]
    split
    · next h =>
      intro c hc
      simp only [List.mem_singleton] at hc
      subst hc
      exact decDigit_bounds n h
    · next h =>
      intro c hc
      rw [List.mem_append] at hc
      rcases hc with hc | hc
      · exact ih (n / 10) (by omega) c hc
      · simp only [List.mem_singleton] at hc
        subst hc
        exact decDigit_bounds (n % 10) (by omega)

theorem natToDigits_ne_nil (n : Nat) : natToDigits n ≠ [] := by
  rw [natToDigits]
  split <;> simp

theorem digitsToNatAux_append (a : Nat) (l1 l2 : List Char) :
    digitsToNatAux a (l1 ++ l2) = digitsToNatAux (digitsToNatAux a l1) l2 := by
  induction l1 generalizing a with
  | nil => rfl
  | cons c cs ih =>
    show digitsToNatAux (a * 10 + (c.toNat - 48)) (cs ++ l2) = _
    rw [ih]
    rfl

theorem digitsToNat_natToDigits (n : Nat) : digitsToNat (natToDigits n) = n := by
  induction n using Nat.strong_induction_on with
  | _ n ih =>
    rw [natToDigits]
    split
    · next h =>
      show digitsToNatAux (0 * 10 + ((decDigit n).toNat - 48)) [] = n
      rw [decDigit_toNat n h]
      show 0 * 10 + (48 + n - 48) = n
      omega
    · next h =>
      rw [digitsToNat, digitsToNatAux_append]
      have hrec : digitsToNatAux 0 (natToDigits (n / 10)) = n / 10 := ih (n / 10) (by omega)
      rw [hrec]
      show (n / 10) * 10 + ((decDigit (n % 10)).toNat - 48) = n
      rw [decDigit_toNat (n % 10) (by omega)]
      omega

theorem takeDigits_append (ds rest : List Char)
    (hds : ∀ c ∈ ds, 48 ≤ c.toNat ∧ c.toNat ≤ 57)
    (hrest : ∀ c, rest.head? = some c → ¬(48 ≤ c.toNat ∧ c.toNat ≤ 57)) :
    takeDigits (ds ++ rest) = (ds, rest) := by
  induction ds with
  | nil =>
    cases rest with
    | nil => rfl
    | cons c cs =>
      simp only [List.nil_append, takeDigits]
      rw [if_neg (hrest c rfl)]
  | cons c cs ih =>
    have hih := ih (fun x hx => hds x (by simp [hx]))
    simp only [List.cons_append, List.append_eq, takeDigits, if_pos (hds c (by simp)), hih]

theorem parseIntChars_dash_some (l ds r : List Char) (d : Char)
    (ht : takeDigits l = (d :: ds, r)) :
    parseIntChars ('-' :: l) = some (-(digitsToNat (d :: ds) : Int), r) := by
  rw [parseIntChars, if_pos (show ('-' :: l).head? = some '-' from rfl)]
  show (match takeDigits l with
        | ([], _) => none
        | (d :: ds, r) => some (-(digitsToNat (d :: ds) : Int), r)) = _
  rw [ht]

theorem parseIntChars_nodash_some (c : Char) (l ds r : List Char) (d : Char)
    (h : c ≠ '-') (ht : takeDigits (c :: l) = (d :: ds, r)) :
    parseIntChars (c :: l) = some ((digitsToNat (d :: ds) : Int), r) := by
  rw [parseIntChars, if_neg (by simpa using h)]
  show (match takeDigits (c :: l) with
        | ([], _) => none
        | (d :: ds, r) => some ((digitsToNat (d :: ds) : Int), r)) = _
  rw [ht]

theorem parseIntChars_intToDigits (i : Int) (rest : List Char)
    (hrest : ∀ c, rest.head? = some c → ¬(48 ≤ c.toNat ∧ c.toNat ≤ 57)) :
    parseIntChars (intToDigits i ++ rest) = some (i, rest) := by
  by_cases h : i < 0
  · -- negative: '-' followed by the digits of the absolute value
    obtain ⟨d, ds, hd⟩ : ∃ d ds, natToDigits i.natAbs = d :: ds := by
      cases hnd : natToDigits i.natAbs with
      | nil => exact absurd hnd (natToDigits_ne_nil _)
      | cons d ds => exact ⟨d, ds, rfl⟩
    rw [show intToDigits i ++ rest = '-' :: (natToDigits i.natAbs ++ rest) from by
      rw [intToDigits, if_pos h, List.cons_append]]
    rw [parseIntChars_dash_some _ ds rest d (by
      rw [takeDigits_append _ _ (natToDigits_all_digits _) hrest, hd])]
    rw [← hd, digitsToNat_natToDigits]
    have hi : -(i.natAbs : Int) = i := by omega
    rw [hi]
  · obtain ⟨d, ds, hd⟩ : ∃ d ds, natToDigits i.toNat = d :: ds := by
      cases hnd : natToDigits i.toNat with
      | nil => exact absurd hnd (natToDigits_ne_nil _)
      | cons d ds => exact ⟨d, ds, rfl⟩
    have hdig : 48 ≤ d.toNat ∧ d.toNat ≤ 57 :=
      natToDigits_all_digits i.toNat d (by rw [hd]; simp)
    have hddash : d ≠ '-' := by
      intro hcon
      subst hcon
      exact absurd hdig (by decide)
    rw [show intToDigits i ++ rest = d :: (ds ++ rest) from by
      rw [intToDigits, if_neg h, hd, List.cons_append]]
    rw [parseIntChars_nodash_some d _ ds rest d hddash (by
      rw [← List.cons_append, ← hd, takeDigits_append _ _ (natToDigits_all_digits _) hrest, hd])]
    rw [← hd, digitsToNat_natToDigits]
    have hi : (i.toNat : Int) = i := by omega
    rw [hi]

/-- Claim C6: round-trip — for every TokenRecord, writing it to the cache
file with `json.dump` and then immediately reading it back with `json.load`
yields the same token string and the same expiration value. -/
theorem C6_cache_roundtrip (r : TokenRecord) :
    loadTokenRecord (dumpTokenRecord r) = some r := by
  unfold loadTokenRecord dumpTokenRecord
  rw [show (String.mk ("\x7b\"token\": \"".data ++ escapeList r.token.data
      ++ '"' :: (", \"expiration\": ".data ++ (intToDigits r.expiration ++ ['\x7d'])))).data
    = "\x7b\"token\": \"".data ++ (escapeList r.token.data
      ++ '"' :: (", \"expiration\": ".data ++ (intToDigits r.expiration ++ ['\x7d'])))
    from by simp]
  rw [stripL_append]
  simp only [Option.some_bind]
  rw [parseChars_escapeList]
  simp only [Option.some_bind]
  rw [stripL_append]
  simp only [Option.some_bind]
  rw [parseIntChars_intToDigits _ _ (by intro c hc; cases hc; decide)]
  rfl

/-! ## Effect-model lemmas -/

theorem get_env_var_ok (env : String → Option String) (var s : String) (d : Option String)
    (h : env ("WALLABAG_" ++ var) = some s) (hs : s ≠ "") :
    get_env_var env var d = .ok s := by
  simp only [get_env_var, h, hs, if_false]

theorem get_env_var_default (env : String → Option String) (var v : String) (d : Option String)
    (h : env ("WALLABAG_" ++ var) = none) (hd : d = some v) (hv : v ≠ "") :
    get_env_var env var d = .ok v := by
  simp only [get_env_var, h, hd, hv, if_false]

theorem api_refresh_ok (env : String → Option String) (u : String) (now2 : Int)
    (a : String) (ei : Int) (hc : credsPresent env) :
    ∃ req : HttpRequest,
      get_oauth_token_and_expiration_from_api env u now2 a ei
        = (.ok ⟨some a, some (now2 + ei)⟩, ⟨credential_reads, [req], []⟩)
      ∧ req.url = u ++ "/oauth/v2/token" := by
  obtain ⟨⟨s1, h1, n1⟩, ⟨s2, h2, n2⟩, ⟨s3, h3, n3⟩, ⟨s4, h4, n4⟩⟩ := hc
  refine ⟨post_request (u ++ "/oauth/v2/token")
    [("grant_type", "password"), ("client_id", s1), ("client_secret", s2),
     ("username", s3), ("password", s4)] none, ?_, rfl⟩
  unfold get_oauth_token_and_expiration_from_api
  rw [get_env_var_ok env "CLIENT_ID" s1 none h1 n1,
    get_env_var_ok env "CLIENT_SECRET" s2 none h2 n2,
    get_env_var_ok env "USERNAME" s3 none h3 n3,
    get_env_var_ok env "PASSWORD" s4 none h4 n4]
  rfl

theorem refresh_ok (env : String → Option String) (u : String) (cache : CacheContent)
    (d : TokenDict) (e : Int) (now1 now2 : Int) (a : String) (ei : Int)
    (hc : credsPresent env) (hl : loadCache cache = .ok d) (he : d.expiration = some e)
    (hlt : e < now1) :
    ∃ req : HttpRequest,
      get_oauth_token env u cache now1 now2 a ei
        = (.ok a, ⟨credential_reads, [req], []⟩, .dict ⟨some a, some (now2 + ei)⟩)
      ∧ req.url = u ++ "/oauth/v2/token" := by
  obtain ⟨req, hapi, hurl⟩ := api_refresh_ok env u now2 a ei hc
  refine ⟨req, ?_, hurl⟩
  simp only [get_oauth_token, hl, he]
  rw [if_pos hlt]
  simp only [hapi, finalToken]

theorem get_oauth_token_cached (env : String → Option String) (u t : String) (e : Int)
    (now1 now2 : Int) (a : String) (ei : Int) (h : ¬ e < now1) :
    get_oauth_token env u (.dict ⟨some t, some e⟩) now1 now2 a ei
      = (.ok t, Trace.none, .dict ⟨some t, some e⟩) := by
  simp only [get_oauth_token, loadCache]
  rw [if_neg h]
  rfl

theorem get_wallabag_cached (env : String → Option String) (u t : String) (e : Int)
    (now1 now2 : Int) (a : String) (ei : Int)
    (hu : get_env_var env "URL" (some "https://app.wallabag.it") = .ok u)
    (h : ¬ e < now1) :
    get_wallabag env (.dict ⟨some t, some e⟩) now1 now2 a ei
      = (.ok ⟨u, t⟩, ⟨["WALLABAG_URL"], [], []⟩, .dict ⟨some t, some e⟩) := by
  simp only [get_wallabag, hu, get_oauth_token_cached env u t e now1 now2 a ei h]
  rfl

theorem main_add_cached (env : String → Option String) (u t : String) (e : Int)
    (now1 now2 : Int) (a : String) (ei : Int) (p url : String)
    (hu : get_env_var env "URL" (some "https://app.wallabag.it") = .ok u)
    (h : ¬ e < now1) :
    main_run env (.dict ⟨some t, some e⟩) now1 now2 a ei [p, "add", url]
      = (.ok (), ⟨["WALLABAG_URL"], [], [Wallabag.add ⟨u, t⟩ url]⟩,
        .dict ⟨some t, some e⟩) := by
  simp only [main_run, get_wallabag_cached env u t e now1 now2 a ei hu h]
  rfl

/-! ## Claim theorems -/

/-- Claim C1 is false as stated: at a malformed cache file `get_oauth_token`
does not silently proceed with a fresh OAuth request — it propagates
`json.JSONDecodeError` (there is no try/except around `json.load`), makes no
network call (empty trace), and leaves the cache as it was. -/
theorem C1_counterexample :
    get_oauth_token envTest "https://w.example" .malformed 100 100 "fresh" 3600
      = (.exc .jsonDecodeError, Trace.none, .malformed) := rfl

/-- Claim C1 (amended): for every cache file whose contents are malformed
JSON, or parse to an object lacking the `"expiration"` member,
`get_oauth_token` raises an uncaught exception (`json.JSONDecodeError` or
`KeyError`) before any OAuth request is made, leaving the cache file
unchanged — it does not treat such a file like an absent one. -/
theorem C1_parse_failure_raises (env : String → Option String) (u : String)
    (cache : CacheContent) (now1 now2 : Int) (a : String) (ei : Int)
    (h : cache = .malformed ∨ ∃ d : TokenDict, cache = .dict d ∧ d.expiration = none) :
    ∃ err : PyError,
      get_oauth_token env u cache now1 now2 a ei = (.exc err, Trace.none, cache) := by
  rcases h with h | ⟨d, hd, he⟩
  · subst h
    exact ⟨.jsonDecodeError, rfl⟩
  · subst hd
    refine ⟨.keyError "expiration", ?_⟩
    simp only [get_oauth_token, loadCache, he]

theorem C1_witness :
    ∃ err : PyError,
      get_oauth_token envTest "https://w.example" (.dict ⟨some "tok", none⟩) 100 100 "fresh" 3600
        = (.exc err, Trace.none, .dict ⟨some "tok", none⟩) :=
  C1_parse_failure_raises envTest "https://w.example" (.dict ⟨some "tok", none⟩) 100 100
    "fresh" 3600 (Or.inr ⟨⟨some "tok", none⟩, rfl, rfl⟩)

/-- Claim C2 is false as stated: with the cached `expiration` equal to the
current time (`expiration ≤ now` but not `<`), the check
`token_data["expiration"] < int(round(time.time()))` is false, so no OAuth
request is made at all — the stale cached token is returned and the cache is
untouched. -/
theorem C2_counterexample :
    get_oauth_token envTest "https://w.example" (.dict ⟨some "cached", some 100⟩) 100 100
        "fresh" 3600
      = (.ok "cached", Trace.none, .dict ⟨some "cached", some 100⟩) := rfl

/-- Claim C2 (amended): for every cache file whose `expiration` is strictly
less than the current time (and likewise an absent file, when the current
time is positive), `get_oauth_token` makes exactly one OAuth token request
and, on success, overwrites the cache file with the new token and expiration
`now + expires_in`; with a non-negative `expires_in` and a monotone clock
that expiration is strictly greater than the old one.  At `expiration =
current time` the code refreshes nothing (see the counterexample). -/
theorem C2_refresh_behavior (env : String → Option String) (u : String)
    (cache : CacheContent) (now1 now2 : Int) (a : String) (ei : Int)
    (hc : credsPresent env)
    (hcache : (cache = .absent ∧ 0 < now1)
      ∨ (∃ d e, cache = .dict d ∧ d.expiration = some e ∧ e < now1))
    (hn : now1 ≤ now2) (hei : 0 ≤ ei) :
    ∃ tr : Trace,
      get_oauth_token env u cache now1 now2 a ei
        = (.ok a, tr, .dict ⟨some a, some (now2 + ei)⟩)
      ∧ tr.oauthPosts.length = 1
      ∧ (∀ d e, cache = .dict d → d.expiration = some e → e < now2 + ei) := by
  rcases hcache with ⟨hab, hpos⟩ | ⟨d, e, hd, he, hlt⟩
  · subst hab
    obtain ⟨req, hrun, -⟩ :=
      refresh_ok env u .absent ⟨none, some 0⟩ 0 now1 now2 a ei hc rfl rfl hpos
    exact ⟨_, hrun, rfl, fun d e hde => by cases hde⟩
  · subst hd
    obtain ⟨req, hrun, -⟩ := refresh_ok env u (.dict d) d e now1 now2 a ei hc rfl he hlt
    refine ⟨_, hrun, rfl, ?_⟩
    intro d' e' hd' he'
    cases hd'
    rw [he] at he'
    cases he'
    omega

theorem C2_witness :
    ∃ tr : Trace,
      get_oauth_token envTest "https://w.example" .absent 1 2 "fresh" 3600
        = (.ok "fresh", tr, .dict ⟨some "fresh", some (2 + 3600)⟩)
      ∧ tr.oauthPosts.length = 1
      ∧ (∀ d e, CacheContent.absent = .dict d → d.expiration = some e → e < 2 + 3600) :=
  C2_refresh_behavior envTest "https://w.example" .absent 1 2 "fresh" 3600
    ⟨⟨"cid", rfl, by decide⟩, ⟨"sec", rfl, by decide⟩, ⟨"user", rfl, by decide⟩,
      ⟨"pw", rfl, by decide⟩⟩
    (Or.inl ⟨rfl, by decide⟩) (by decide) (by decide)

/-- Claim C3 (code bug): the guard in `print_usage_and_exit_unless` is dead
code.  Its parameter is declared `*condition: bool`, so every call packs its
single boolean into a one-element tuple, which is truthy, and
`if not condition:` never fires — the intent stated by the function's own
docstring ("Print the usage and exit unless condition is met.") is never
carried out.  Consequences, evaluated on concrete runs: a no-op for either
boolean; zero extra arguments raise `IndexError` at `args[1]` with no
effect; an unknown command raises `AttributeError` from `getattr`, but only
after `get_wallabag()` has read the environment and — with the absent cache
here — performed the OAuth POST and rewritten the cache; `add` with two
URL arguments raises `TypeError` at the reflective call after the same
effects.  No usage text is printed in any of these runs. -/
theorem C3_usage_guard_dead :
    (∀ b : Bool, print_usage_and_exit_unless [b] = .ok ())
    ∧ main_run envTest .absent 100 100 "fresh" 3600 ["prog"]
        = (.exc .indexError, Trace.none, .absent)
    ∧ (main_run envTest .absent 100 100 "fresh" 3600 ["prog", "foo", "x"]).1
        = .exc .attributeError
    ∧ ((main_run envTest .absent 100 100 "fresh" 3600
        ["prog", "foo", "x"]).2.1).oauthPosts.length = 1
    ∧ (main_run envTest .absent 100 100 "fresh" 3600 ["prog", "add", "a", "b"]).1
        = .exc .typeError :=
  ⟨fun _ => rfl, rfl, by decide, by decide, by decide⟩

/-- Claim C4: for every cache file holding a token and an `expiration`
strictly greater than the current time, `get_oauth_token` makes no network
call and reads no environment variable (empty trace), returns the cached
token string, and leaves the cache file unchanged. -/
theorem C4_valid_cache_no_network (env : String → Option String) (u t : String) (e : Int)
    (now1 now2 : Int) (a : String) (ei : Int) (h : now1 < e) :
    get_oauth_token env u (.dict ⟨some t, some e⟩) now1 now2 a ei
      = (.ok t, Trace.none, .dict ⟨some t, some e⟩) :=
  get_oauth_token_cached env u t e now1 now2 a ei (by omega)

theorem C4_witness :
    get_oauth_token envTest "https://w.example" (.dict ⟨some "tok", some 200⟩) 100 100
        "fresh" 3600
      = (.ok "tok", Trace.none, .dict ⟨some "tok", some 200⟩) :=
  C4_valid_cache_no_network envTest "https://w.example" "tok" 200 100 100 "fresh" 3600
    (by decide)

/-- Claim C5 is false as stated: when the (cached) token is the empty
string, `_post`'s `if token:` guard is falsy, so the single POST issued for
`add <url>` carries no `Authorization` header at all — yet it is still sent,
with the right url and body. -/
theorem C5_counterexample :
    ((main_run envTest (.dict ⟨some "", some 200⟩) 100 100 "fresh" 3600
        ["prog", "add", "https://a.example"]).2.1).entriesPosts
      = [⟨"https://w.example/api/entries", [("Content-Type", "application/json")],
          json_dumps_obj [("url", "https://a.example")]⟩] := rfl

/-- Claim C5 (amended): for the command `add <url>` run with a valid cached
token that is non-empty, exactly one POST is issued to
`\x7bserver_url\x7d/api/entries`, with `Content-Type: application/json`,
`Authorization: Bearer \x7btoken\x7d`, and body `\x7b"url": url\x7d`; with
an empty token the same single POST is issued but the `Authorization` header
is omitted (see the counterexample). -/
theorem C5_add_posts_once (env : String → Option String) (u t : String) (e : Int)
    (now1 now2 : Int) (a : String) (ei : Int) (p url : String)
    (hu : env "WALLABAG_URL" = some u) (hune : u ≠ "") (ht : t ≠ "") (he : ¬ e < now1) :
    main_run env (.dict ⟨some t, some e⟩) now1 now2 a ei [p, "add", url]
      = (.ok (), ⟨["WALLABAG_URL"], [],
          [⟨u ++ "/api/entries",
            [("Content-Type", "application/json"), ("Authorization", "Bearer " ++ t)],
            json_dumps_obj [("url", url)]⟩]⟩,
        .dict ⟨some t, some e⟩) := by
  rw [main_add_cached env u t e now1 now2 a ei p url (get_env_var_ok env "URL" u _ hu hune) he]
  simp only [Wallabag.add, post_request]
  rw [if_neg ht]
  rfl

theorem C5_witness :
    main_run envTest (.dict ⟨some "tok", some 200⟩) 100 100 "fresh" 3600
        ["prog", "add", "https://a.example"]
      = (.ok (), ⟨["WALLABAG_URL"], [],
          [⟨"https://w.example" ++ "/api/entries",
            [("Content-Type", "application/json"), ("Authorization", "Bearer " ++ "tok")],
            json_dumps_obj [("url", "https://a.example")]⟩]⟩,
        .dict ⟨some "tok", some 200⟩) :=
  C5_add_posts_once envTest "https://w.example" "tok" 200 100 100 "fresh" 3600 "prog"
    "https://a.example" rfl (by decide) (by decide) (by decide)

/-- Claim C7: for every environment variable looked up with no default that
is absent from the environment, `get_env_var` prints a message containing
the (prefixed) variable name and terminates the process with exit status 1
(`sys.exit(1)`, modelled as `.error (1, msg)`). -/
theorem C7_missing_required_env (env : String → Option String) (var : String)
    (h : env ("WALLABAG_" ++ var) = none) :
    get_env_var env var none
      = .error (1, "Missing required environment variable: " ++ ("WALLABAG_" ++ var))
    ∧ ∃ pre post : String,
        "Missing required environment variable: " ++ ("WALLABAG_" ++ var)
          = pre ++ ("WALLABAG_" ++ var) ++ post := by
  constructor
  · simp only [get_env_var, h]
  · exact ⟨"Missing required environment variable: ", "", by simp⟩

theorem C7_witness :
    get_env_var (fun _ => none) "CLIENT_ID" none
      = .error (1, "Missing required environment variable: " ++ ("WALLABAG_" ++ "CLIENT_ID"))
    ∧ ∃ pre post : String,
        "Missing required environment variable: " ++ ("WALLABAG_" ++ "CLIENT_ID")
          = pre ++ ("WALLABAG_" ++ "CLIENT_ID") ++ post :=
  C7_missing_required_env (fun _ => none) "CLIENT_ID" rfl

/-- Claim C8: on every successful OAuth refresh (cache loaded, expiration
present and in the past, credentials available), the persisted record is
exactly `token = access_token` and `expiration = now + expires_in`, where
`now` is the `int(round(time.time()))` sample taken after the response. -/
theorem C8_refresh_persists_record (env : String → Option String) (u : String)
    (cache : CacheContent) (d : TokenDict) (e : Int) (now1 now2 : Int)
    (a : String) (ei : Int)
    (hc : credsPresent env) (hl : loadCache cache = .ok d) (he : d.expiration = some e)
    (hlt : e < now1) :
    (get_oauth_token env u cache now1 now2 a ei).2.2
      = .dict ⟨some a, some (now2 + ei)⟩ := by
  obtain ⟨req, hrun, -⟩ := refresh_ok env u cache d e now1 now2 a ei hc hl he hlt
  rw [hrun]

theorem C8_witness :
    (get_oauth_token envTest "https://w.example" (.dict ⟨some "old", some 50⟩) 100 107
        "fresh" 3600).2.2
      = .dict ⟨some "fresh", some (107 + 3600)⟩ :=
  C8_refresh_persists_record envTest "https://w.example" (.dict ⟨some "old", some 50⟩)
    ⟨some "old", some 50⟩ 50 100 107 "fresh" 3600
    ⟨⟨"cid", rfl, by decide⟩, ⟨"sec", rfl, by decide⟩, ⟨"user", rfl, by decide⟩,
      ⟨"pw", rfl, by decide⟩⟩
    rfl rfl (by decide)

/-- Claim C9: a variable that is present in the environment but equal to the
empty string is treated like an absent one — `if not value:` is true for
`""` — so `get_env_var` prints the missing-variable message and exits with
status 1 even when a non-empty default was supplied (e.g. `WALLABAG_URL`
set to `""` exits instead of using the default server). -/
theorem C9_empty_value_exits (env : String → Option String) (var : String)
    (d : Option String) (h : env ("WALLABAG_" ++ var) = some "") :
    get_env_var env var d
      = .error (1, "Missing required environment variable: " ++ ("WALLABAG_" ++ var)) := by
  simp only [get_env_var, h]
  rw [if_pos trivial]

theorem C9_witness :
    get_env_var envUrlEmpty "URL" (some "https://app.wallabag.it")
      = .error (1, "Missing required environment variable: " ++ ("WALLABAG_" ++ "URL")) :=
  C9_empty_value_exits envUrlEmpty "URL" (some "https://app.wallabag.it") rfl

/-- Claim C10: when the cache file holds an unexpired token, a full
`add <url>` run completes normally having read only `WALLABAG_URL` — none of
the four credential variables is read, whatever their values (they may all
be absent), so their absence cannot cause an exit. -/
theorem C10_credentials_unread_when_cached (env : String → Option String) (t : String)
    (e : Int) (now1 now2 : Int) (a : String) (ei : Int) (p url : String)
    (hu : env "WALLABAG_URL" = none ∨ ∃ u, env "WALLABAG_URL" = some u ∧ u ≠ "")
    (h : ¬ e < now1) :
    (main_run env (.dict ⟨some t, some e⟩) now1 now2 a ei [p, "add", url]).1 = .ok ()
    ∧ ((main_run env (.dict ⟨some t, some e⟩) now1 now2 a ei [p, "add", url]).2.1).envReads
        = ["WALLABAG_URL"] := by
  have hok : ∃ u, get_env_var env "URL" (some "https://app.wallabag.it") = .ok u := by
    rcases hu with hu | ⟨u, hu, hune⟩
    · exact ⟨_, get_env_var_default env "URL" "https://app.wallabag.it" _ hu rfl (by decide)⟩
    · exact ⟨u, get_env_var_ok env "URL" u _ hu hune⟩
  obtain ⟨u, hok⟩ := hok
  rw [main_add_cached env u t e now1 now2 a ei p url hok h]
  exact ⟨rfl, rfl⟩

theorem C10_witness :
    (main_run envOnlyUrl (.dict ⟨some "tok", some 100⟩) 100 100 "fresh" 3600
        ["prog", "add", "https://a.example"]).1 = .ok ()
    ∧ ((main_run envOnlyUrl (.dict ⟨some "tok", some 100⟩) 100 100 "fresh" 3600
        ["prog", "add", "https://a.example"]).2.1).envReads = ["WALLABAG_URL"] :=
  C10_credentials_unread_when_cached envOnlyUrl "tok" 100 100 100 "fresh" 3600 "prog"
    "https://a.example" (Or.inr ⟨"https://w.example", rfl, by decide⟩) (by decide)

end WallabagTinyCli
